import Mathlib

/-!
Verification of the process-supervision core of BunProxyGUI.

The definitions below are a shallow embedding of the TypeScript source:

* `ProcessManager` (src/src/processManager.ts): the process map, the
  per-instance log ring, `start`, `getLogs`, `addLog`.
* the auto-restart policy attached to the `exit` event of the process
  manager (server entry point), with its per-instance attempt window;
* the WebSocket broadcast fan-out and client set;
* `ServiceManager.setPid` / `ServiceManager.update` (instance registry).

JavaScript `Map` objects are embedded as association lists in insertion
order; `Map.set` overwrites in place, `Map.delete` removes the entry.
Timestamps (`Date.now()`, ISO strings) are embedded as natural numbers.
-/

namespace BunProxy

/-- `Map.get`: value of the first matching key, if any. -/
def mapGet {α : Type} : List (String × α) → String → Option α
  | [], _ => none
  | p :: rest, k => if p.1 = k then some p.2 else mapGet rest k

/-- Association-list embedding of a JavaScript `Map` keyed by strings:
`has`. -/
def mapHas {α : Type} (m : List (String × α)) (k : String) : Bool :=
  (mapGet m k).isSome

/-- `Map.set`: overwrite the existing entry in place (JS keeps the original
insertion position), otherwise append a new entry. -/
def mapSet {α : Type} : List (String × α) → String → α → List (String × α)
  | [], k, v => [(k, v)]
  | p :: rest, k, v =>
    if p.1 = k then (k, v) :: rest else p :: mapSet rest k v

/-- `Map.delete`: remove the entry with the given key. -/
def mapDelete {α : Type} : List (String × α) → String → List (String × α)
  | [], _ => []
  | p :: rest, k =>
    if p.1 = k then rest else p :: mapDelete rest k

/-- The keys of a map, in insertion order. -/
def mapKeys {α : Type} (m : List (String × α)) : List String :=
  m.map Prod.fst

/-- A JS `Map` never holds two entries with the same key; the association
list embedding states that as key distinctness. -/
def keysNodup {α : Type} (m : List (String × α)) : Prop :=
  (mapKeys m).Nodup

instance {α : Type} (m : List (String × α)) : Decidable (keysNodup m) := by
  unfold keysNodup; infer_instance

/-- The `type` field of a log entry: which channel produced it. -/
inductive Chan where
  | stdout
  | stderr
  | system
deriving DecidableEq, Repr

/-- A `LogEntry` of processManager.ts: timestamp, channel, message. -/
structure LogEntry where
  timestamp : Nat
  type : Chan
  message : String
deriving DecidableEq, Repr

/-- State of a `ProcessManager` instance: the map of live child handles
(`processes`, keeping the pid the spawn produced, possibly absent) and the
per-instance log buffers (`logs`). `maxLogEntries = 1000` is inlined. -/
structure PMState where
  processes : List (String × Option Nat)
  logs : List (String × List LogEntry)
deriving DecidableEq, Repr

/-- The empty manager: both maps empty. -/
def PMState.init : PMState := ⟨[], []⟩

/-- `ProcessManager.addLog`: fetch the buffer (or `[]`), push the trimmed
message, and if the length now exceeds 1000, splice away the oldest
entries so that exactly 1000 remain. -/
def addLog (s : PMState) (instanceId : String) (type : Chan)
    (message : String) (now : Nat) : PMState :=
  let logs := (mapGet s.logs instanceId).getD []
  let logs := logs ++ [⟨now, type, message.trim⟩]
  let logs := if logs.length > 1000 then logs.drop (logs.length - 1000) else logs
  { s with logs := mapSet s.logs instanceId logs }

/-- `ProcessManager.getLogs`: the retained buffer, truncated by
`logs.slice(-limit)` when `limit` is given and truthy (a `limit` of `0` is
falsy in JavaScript, so it returns the full buffer). -/
def getLogs (s : PMState) (instanceId : String) (limit : Option Nat) :
    List LogEntry :=
  let logs := (mapGet s.logs instanceId).getD []
  match limit with
  | none => logs
  | some l => if l = 0 then logs else logs.drop (logs.length - l)

/-- Errors `ProcessManager.start` can throw synchronously. -/
inductive StartError where
  | alreadyRunning
  | noPid
deriving DecidableEq, Repr

/-- The system log message recorded on start; an absent pid prints as
`undefined`, as the template literal does. -/
def startMsg (pid : Option Nat) : String :=
  "Process started (PID: " ++ (match pid with
    | some n => toString n
    | none => "undefined") ++ ")"

/-- `ProcessManager.start`: reject when a handle already exists; otherwise
record the spawned child in `processes`, reset the log buffer to `[]`,
append the system entry, and finally throw `noPid` when the child has no
pid — note that the thrown error does NOT undo the map mutations, exactly
as in the source. The spawn outcome (`spawnedPid`) is a parameter: the OS
either yields a pid or not. Returns the state after the call together with
the thrown error or the returned pid. -/
def start (s : PMState) (instanceId : String) (spawnedPid : Option Nat)
    (now : Nat) : PMState × Except StartError Nat :=
  if mapHas s.processes instanceId then
    (s, .error .alreadyRunning)
  else
    let s1 : PMState :=
      { processes := mapSet s.processes instanceId spawnedPid
        logs := mapSet s.logs instanceId [] }
    let s2 := addLog s1 instanceId .system (startMsg spawnedPid) now
    let res : Except StartError Nat :=
      match spawnedPid with
      | none => .error .noPid
      | some p => if p = 0 then .error .noPid else .ok p
    (s2, res)

/-- `ProcessManager.isRunning`. -/
def isRunning (s : PMState) (instanceId : String) : Bool :=
  mapHas s.processes instanceId

/-! ### Auto-restart policy (server entry point, `processManager.on` for exit) -/

/-- One entry of the `restartAttempts` map:
`\x7b count: number; firstAttemptAt: number \x7d`. -/
structure AttemptInfo where
  count : Nat
  firstAttemptAt : Nat
deriving DecidableEq, Repr

/-- The decision the exit handler takes for a crash-exit:
either schedule a respawn after a backoff, or give up and broadcast
`autoRestartFailed` with the attempt count. -/
inductive RestartAction where
  | schedule : Nat → RestartAction
  | giveUp : Nat → RestartAction
deriving DecidableEq, Repr

/-- The auto-restart portion of the exit handler, for one observed exit at
time `now`: when auto-restart applies (`enabled`, i.e. the instance still
exists and has `autoRestart`), load the attempt window (defaulting to
`\x7b count: 0, firstAttemptAt: now \x7d`), reset it when stale
(`now - firstAttemptAt > 60000`), give up when `count >= 5`, otherwise
increment the count, store it back, and schedule a respawn after
`1000 * count` ms. Returns the updated `restartAttempts` map and the
action taken, if any. Subtraction on timestamps only feeds the `> 60000`
test, where truncated subtraction agrees with JS arithmetic whenever the
clock is monotone, and also when it is not (a negative difference is never
`> 60000`, and neither is `0`). -/
def onExitPolicy (enabled : Bool) (m : List (String × AttemptInfo))
    (instanceId : String) (now : Nat) :
    List (String × AttemptInfo) × Option RestartAction :=
  if enabled then
    let info0 := (mapGet m instanceId).getD ⟨0, now⟩
    let info := if now - info0.firstAttemptAt > 60000 then
        (⟨0, now⟩ : AttemptInfo) else info0
    if info.count ≥ 5 then
      (m, some (.giveUp info.count))
    else
      let info1 : AttemptInfo := ⟨info.count + 1, info.firstAttemptAt⟩
      (mapSet m instanceId info1, some (.schedule (1000 * info1.count)))
  else
    (m, none)

/-- A sequence of consecutive crash-exits of one instance with
auto-restart enabled, at the given times: the exit handler runs once per
exit; the respawns it schedules are collected in order. -/
def runExits : List (String × AttemptInfo) → String → List Nat →
    List (String × AttemptInfo) × List (Option RestartAction)
  | m, _, [] => (m, [])
  | m, instanceId, t :: ts =>
    let p := onExitPolicy true m instanceId t
    let q := runExits p.1 instanceId ts
    (q.1, p.2 :: q.2)

/-! ### Instance registry (`ServiceManager`) -/

/-- A `BunProxyInstance` registry record. `lastStarted` is an ISO string in
the source, embedded as a timestamp. The nested `downloadSource` is kept as
its two fields. -/
structure BunProxyInstance where
  id : String
  name : String
  version : String
  platform : String
  binaryPath : String
  dataDir : String
  configPath : String
  pid : Option Nat
  lastStarted : Option Nat
  autoRestart : Bool
  downloadUrl : String
  downloadSha256 : String
deriving DecidableEq, Repr

/-- `ServiceManager.getById`: first instance with the given id. -/
def getById : List BunProxyInstance → String → Option BunProxyInstance
  | [], _ => none
  | inst :: rest, id => if inst.id = id then some inst else getById rest id

/-- `ServiceManager.update`: locate the first instance with the given id
(`findIndex`) and replace it by the object-spread update; throws when the
id is absent. The update itself is a function, standing for the spread
`\x7b ...instance, ...updates \x7d` for a fixed `updates` object. -/
def smUpdate (u : BunProxyInstance → BunProxyInstance) :
    List BunProxyInstance → String →
    Except String (List BunProxyInstance)
  | [], _ => .error "not found"
  | inst :: rest, id =>
    if inst.id = id then .ok (u inst :: rest)
    else
      match smUpdate u rest id with
      | .ok rest2 => .ok (inst :: rest2)
      | .error e => .error e

/-- JS truthiness of the `pid` argument of `setPid`: `undefined` and `0`
are falsy. -/
def pidTruthy : Option Nat → Bool
  | some p => p ≠ 0
  | none => false

/-- The field update `setPid` applies:
`\x7b pid, lastStarted: pid ? new Date().toISOString() : undefined \x7d`
spread over the instance — both `pid` and `lastStarted` keys are present
in the updates object, so both always overwrite. -/
def setPidUpdate (pid : Option Nat) (now : Nat)
    (inst : BunProxyInstance) : BunProxyInstance :=
  { inst with
    pid := pid
    lastStarted := if pidTruthy pid then some now else none }

/-- `ServiceManager.setPid`: `update(id, \x7b pid, lastStarted \x7d)`. -/
def setPid (d : List BunProxyInstance) (id : String) (pid : Option Nat)
    (now : Nat) : Except String (List BunProxyInstance) :=
  smUpdate (setPidUpdate pid now) d id

/-! ### Server state and the two start paths -/

/-- The server-side state the start paths touch: the `restartAttempts`
map, the process manager, and the instance registry. -/
structure SrvState where
  attempts : List (String × AttemptInfo)
  pm : PMState
  registry : List BunProxyInstance
deriving DecidableEq, Repr

/-- The scheduled-respawn callback (the `setTimeout` body of the exit
handler): re-read the instance (gone: do nothing), bail out when the
instance is already running (deleting the attempt entry), otherwise call
`processManager.start`; on success persist the pid and delete the attempt
entry; any thrown error lands in the `catch`, which merely broadcasts and
leaves the attempt map as it was. -/
def respawnFire (s : SrvState) (instanceId : String)
    (spawnedPid : Option Nat) (now : Nat) : SrvState :=
  match getById s.registry instanceId with
  | none => s
  | some _ =>
    if isRunning s.pm instanceId then
      { s with attempts := mapDelete s.attempts instanceId }
    else
      let r := start s.pm instanceId spawnedPid now
      match r.2 with
      | .error _ => { s with pm := r.1 }
      | .ok pid =>
        match setPid s.registry instanceId (some pid) now with
        | .error _ => { s with pm := r.1 }
        | .ok reg =>
          { attempts := mapDelete s.attempts instanceId
            pm := r.1
            registry := reg }

/-- HTTP responses of the manual start endpoint. -/
inductive ApiResp where
  | notFound
  | conflict
  | serverError
  | started : Nat → ApiResp
deriving DecidableEq, Repr

/-- The manual start endpoint (`POST` on instances start): 404 when the
instance is not in the registry, 400 when already running, otherwise
`processManager.start`, persist the pid, watch the config and broadcast;
a thrown error yields a 500 from the `catch`. The `restartAttempts` map is
never touched on this path. -/
def apiStart (s : SrvState) (instanceId : String)
    (spawnedPid : Option Nat) (now : Nat) : SrvState × ApiResp :=
  match getById s.registry instanceId with
  | none => (s, .notFound)
  | some _ =>
    if isRunning s.pm instanceId then (s, .conflict)
    else
      let r := start s.pm instanceId spawnedPid now
      match r.2 with
      | .error _ => ({ s with pm := r.1 }, .serverError)
      | .ok pid =>
        match setPid s.registry instanceId (some pid) now with
        | .error _ => ({ s with pm := r.1 }, .serverError)
        | .ok reg =>
          ({ s with pm := r.1, registry := reg }, .started pid)

/-! ### WebSocket broadcast -/

/-- A connected WebSocket client: an identity and the `readyState` field
(`0` CONNECTING, `1` OPEN, `2` CLOSING, `3` CLOSED). -/
structure Client where
  cid : Nat
  readyState : Nat
deriving DecidableEq, Repr

/-- `WebSocket.OPEN`. -/
def wsOPEN : Nat := 1

/-- The `broadcast` function: iterate over the client set and send the
message to every client whose `readyState` is `OPEN`, skipping the rest;
the set itself is not modified by a broadcast. Result: the client set
after the call, and the cids the message was sent to, in iteration
order. -/
def broadcast (clients : List Client) : List Client × List Nat :=
  (clients,
   (clients.filter (fun c => c.readyState = wsOPEN)).map (fun c => c.cid))

/-- The handler registered on each connection for the close event of that
socket: remove the client from the set. -/
def onCloseEv (clients : List Client) (c : Client) : List Client :=
  clients.erase c

/-! ### Derived log-buffer views and fixtures -/

/-- The retained log buffer of an instance (what `getLogs` with no limit
returns). -/
def logsOf (s : PMState) (instanceId : String) : List LogEntry :=
  (mapGet s.logs instanceId).getD []

/-- Keep only the newest 1000 entries of a buffer — the effect of the
splice in `addLog` (a no-op on buffers within the bound, by truncated
subtraction). -/
def clip (l : List LogEntry) : List LogEntry :=
  l.drop (l.length - 1000)

/-- Append a sequence of captured chunks to one instance via `addLog`:
channel, raw message and timestamp each. -/
def appendAll : PMState → String → List (Chan × String × Nat) → PMState
  | s, _, [] => s
  | s, instanceId, (c, msg, t) :: rest =>
    appendAll (addLog s instanceId c msg t) instanceId rest

/-- The log entries a sequence of chunks turns into. -/
def entriesOf (ms : List (Chan × String × Nat)) : List LogEntry :=
  ms.map (fun e => ⟨e.2.2, e.1, e.2.1.trim⟩)

/-- Fixture: instance i1 is not running and retains one stdout log entry
from an earlier run. -/
def preC2 : PMState := addLog PMState.init "i1" Chan.stdout "old output" 1

/-- Fixture: a two-entry retained buffer for instance i1. -/
def preC8 : PMState :=
  addLog (addLog PMState.init "i1" Chan.stdout "one" 0) "i1" Chan.stderr "two" 1

/-- Fixture: a registry record for instance i1 that was last started at
time 5. -/
def instA : BunProxyInstance :=
  ⟨"i1", "proxy", "1.0.0", "linux", "/bin/bunproxy", "/data",
   "/data/config.json", none, some 5, true, "https://example.com/b", "abc"⟩

/-- Fixture: server state where instance i1 is registered, not running,
and carries a restart-attempt window of 3 attempts started at time 0. -/
def srvA : SrvState :=
  ⟨[("i1", ⟨3, 0⟩)], PMState.init, [instA]⟩

/-! ### Map lemmas -/

theorem mapGet_mapSet_self {α : Type} (m : List (String × α)) (k : String)
    (v : α) : mapGet (mapSet m k v) k = some v := by
  induction m with
  | nil => simp [mapSet, mapGet]
  | cons p rest ih =>
    by_cases h : p.1 = k <;> simp [mapSet, mapGet, h, ih]

theorem mapGet_eq_none_iff {α : Type} (m : List (String × α)) (k : String) :
    mapGet m k = none ↔ k ∉ mapKeys m := by
  induction m with
  | nil => simp [mapGet, mapKeys]
  | cons p rest ih =>
    by_cases h : p.1 = k
    · simp [mapGet, mapKeys, h]
    · simp [mapGet, mapKeys, h, ih]
      intro hk
      exact fun hkp => h (hkp ▸ rfl)

theorem mapKeys_cons {α : Type} (p : String × α) (rest : List (String × α)) :
    mapKeys (p :: rest) = p.1 :: mapKeys rest := rfl

theorem mapKeys_mapSet_of_mem {α : Type} (m : List (String × α))
    (k : String) (v : α) (h : k ∈ mapKeys m) :
    mapKeys (mapSet m k v) = mapKeys m := by
  induction m with
  | nil => simp [mapKeys] at h
  | cons p rest ih =>
    by_cases hp : p.1 = k
    · simp [mapSet, hp, mapKeys_cons]
    · have h2 : k ∈ mapKeys rest := by
        rcases List.mem_cons.mp (by simpa [mapKeys_cons] using h) with h1 | h1
        · exact absurd h1.symm hp
        · exact h1
      simp [mapSet, hp, mapKeys_cons, ih h2]

theorem mapKeys_mapSet_of_not_mem {α : Type} (m : List (String × α))
    (k : String) (v : α) (h : k ∉ mapKeys m) :
    mapKeys (mapSet m k v) = mapKeys m ++ [k] := by
  induction m with
  | nil => simp [mapSet, mapKeys]
  | cons p rest ih =>
    have hp : ¬ p.1 = k := by
      intro he
      exact h (by simp [mapKeys_cons, he])
    have h2 : k ∉ mapKeys rest := by
      intro hin
      exact h (by simp [mapKeys_cons, hin])
    simp [mapSet, hp, mapKeys_cons, ih h2]

theorem keysNodup_mapSet {α : Type} (m : List (String × α)) (k : String)
    (v : α) (h : keysNodup m) : keysNodup (mapSet m k v) := by
  by_cases hk : k ∈ mapKeys m
  · unfold keysNodup
    rw [mapKeys_mapSet_of_mem m k v hk]
    exact h
  · unfold keysNodup
    rw [mapKeys_mapSet_of_not_mem m k v hk]
    refine List.Nodup.append h (List.nodup_singleton k) ?_
    intro a ha hb
    rw [List.mem_singleton] at hb
    exact hk (hb ▸ ha)

theorem mapGet_mapDelete_self {α : Type} (m : List (String × α))
    (k : String) (h : keysNodup m) : mapGet (mapDelete m k) k = none := by
  induction m with
  | nil => rfl
  | cons p rest ih =>
    have hcons := List.nodup_cons.mp (by simpa [keysNodup, mapKeys_cons] using h)
    by_cases hp : p.1 = k
    · subst hp
      exact (by simpa [mapDelete] using (mapGet_eq_none_iff rest p.1).mpr hcons.1)
    · simp [mapDelete, hp, mapGet, ih hcons.2]

/-! ### Claims about `ProcessManager.start` -/

/-- Claim C1: starting an instance that already has a live handle fails
with the AlreadyRunning error and leaves the manager state unchanged — in
particular the existing handle is not replaced — and `start` preserves
key-uniqueness of the process map, so at most one live handle exists per
instanceId at any time. -/
theorem C1_start_rejects_when_running (s : PMState) (instanceId : String)
    (spawnedPid : Option Nat) (now : Nat)
    (h : mapHas s.processes instanceId = true)
    (s2 : PMState) (id2 : String) (p2 : Option Nat) (n2 : Nat)
    (h2 : keysNodup s2.processes) :
    start s instanceId spawnedPid now
        = (s, Except.error StartError.alreadyRunning)
    ∧ keysNodup (start s2 id2 p2 n2).1.processes := by
  constructor
  · simp [start, h]
  · by_cases hr : mapHas s2.processes id2
    · simpa [start, hr] using h2
    · simpa [start, hr, addLog] using keysNodup_mapSet s2.processes id2 p2 h2

theorem C1_start_rejects_when_running_witness :
    start ⟨[("i1", some 42)], []⟩ "i1" (some 7) 5
        = (⟨[("i1", some 42)], []⟩, Except.error StartError.alreadyRunning)
    ∧ keysNodup (start ⟨[("i1", some 42)], []⟩ "i1" (some 7) 5).1.processes :=
  C1_start_rejects_when_running ⟨[("i1", some 42)], []⟩ "i1" (some 7) 5
    (by decide) ⟨[("i1", some 42)], []⟩ "i1" (some 7) 5 (by decide)

/-- Claim C2 (code bug witnessed on the embedding): when `start` fails
because the spawned child yields no pid, the partially-created handle is
NOT torn down before the error is surfaced: the noPid error is thrown,
yet the handle for i1 is still in the process map, and the previously
retained log buffer has been replaced rather than left unchanged — the
state is not as if the operation had not happened. -/
theorem C2_no_pid_start_leaks_handle :
    (start preC2 "i1" none 2).2 = Except.error StartError.noPid
    ∧ mapHas (start preC2 "i1" none 2).1.processes "i1" = true
    ∧ mapGet (start preC2 "i1" none 2).1.logs "i1"
        ≠ mapGet preC2.logs "i1" := by
  refine ⟨rfl, by decide, by decide⟩

/-- Claim C10: every start call that reaches the spawn step replaces the
instance's retained log buffer with a fresh one before appending the new
system entry: afterwards the buffer holds exactly that one entry of the
new run, whatever entries previous runs had retained. -/
theorem C10_start_resets_buffer (s : PMState) (instanceId : String)
    (spawnedPid : Option Nat) (now : Nat)
    (h : mapHas s.processes instanceId = false) :
    getLogs (start s instanceId spawnedPid now).1 instanceId none
      = [⟨now, Chan.system, (startMsg spawnedPid).trim⟩] := by
  simp [start, h, addLog, getLogs, mapGet_mapSet_self]

theorem C10_start_resets_buffer_witness :
    getLogs (start preC2 "i1" (some 42) 7).1 "i1" none
      = [⟨7, Chan.system, (startMsg (some 42)).trim⟩] :=
  C10_start_resets_buffer preC2 "i1" (some 42) 7 (by decide)

/-- Claim C5: when an exit is evaluated and the attempt window is stale —
more than 60s elapsed since it started — the counter is reset to 0 and
the window restarted at now before the attempt is counted, so the attempt
is recorded as the first of a new window: stored count 1, window start
now, and a first-step backoff of 1000 ms, regardless of the prior
count. -/
theorem C5_stale_window_resets (m : List (String × AttemptInfo))
    (instanceId : String) (k t0 now : Nat)
    (hm : mapGet m instanceId = some ⟨k, t0⟩)
    (hstale : 60000 < now - t0) :
    onExitPolicy true m instanceId now
      = (mapSet m instanceId ⟨1, now⟩, some (RestartAction.schedule 1000)) := by
  simp [onExitPolicy, hm, hstale]

theorem C5_stale_window_resets_witness :
    onExitPolicy true [("i1", (⟨3, 0⟩ : AttemptInfo))] "i1" 70000
      = (mapSet [("i1", (⟨3, 0⟩ : AttemptInfo))] "i1" ⟨1, 70000⟩,
         some (RestartAction.schedule 1000)) :=
  C5_stale_window_resets [("i1", (⟨3, 0⟩ : AttemptInfo))] "i1" 3 0 70000
    (by decide) (by decide)

/-! ### The log ring bound -/

theorem clip_length_le (l : List LogEntry) : (clip l).length ≤ 1000 := by
  unfold clip
  rw [List.length_drop]
  omega

theorem clip_of_le (l : List LogEntry) (h : l.length ≤ 1000) : clip l = l := by
  unfold clip
  have h0 : l.length - 1000 = 0 := by omega
  rw [h0, List.drop_zero]

theorem logsOf_addLog (s : PMState) (instanceId : String) (c : Chan)
    (msg : String) (t : Nat) :
    logsOf (addLog s instanceId c msg t) instanceId
      = clip (logsOf s instanceId ++ [⟨t, c, msg.trim⟩]) := by
  have key : ∀ l : List LogEntry,
      (if l.length > 1000 then l.drop (l.length - 1000) else l) = clip l := by
    intro l
    by_cases h : l.length > 1000
    · rw [if_pos h]
      rfl
    · rw [if_neg h]
      have h0 : l.length - 1000 = 0 := by omega
      unfold clip
      rw [h0, List.drop_zero]
  simp only [addLog, logsOf, mapGet_mapSet_self, Option.getD_some]
  exact key _

theorem rtake_append_rtake {α : Type} (n : Nat) (x y : List α) :
    List.rtake (List.rtake x n ++ y) n = List.rtake (x ++ y) n := by
  simp only [List.rtake_eq_reverse_take_reverse]
  congr 1
  rw [List.reverse_append, List.reverse_append, List.reverse_reverse]
  rw [List.take_append_eq_append_take, List.take_append_eq_append_take]
  congr 1
  rw [List.take_take]
  congr 1
  omega

theorem clip_clip_append (a b : List LogEntry) :
    clip (clip a ++ b) = clip (a ++ b) :=
  rtake_append_rtake 1000 a b

theorem logsOf_appendAll (s : PMState) (instanceId : String)
    (ms : List (Chan × String × Nat)) :
    logsOf (appendAll s instanceId ms) instanceId
      = List.foldl (fun l e => clip (l ++ [e])) (logsOf s instanceId)
          (entriesOf ms) := by
  induction ms generalizing s with
  | nil => simp [appendAll, entriesOf]
  | cons m rest ih =>
    obtain ⟨c, msg, t⟩ := m
    simp only [appendAll, entriesOf, List.map_cons, List.foldl_cons]
    rw [ih, logsOf_addLog]
    rfl

theorem foldl_clip_eq (es : List LogEntry) (l0 : List LogEntry)
    (h : l0.length ≤ 1000) :
    List.foldl (fun l e => clip (l ++ [e])) l0 es = clip (l0 ++ es) := by
  induction es generalizing l0 with
  | nil => simp [clip_of_le l0 h]
  | cons e rest ih =>
    simp only [List.foldl_cons]
    rw [ih _ (clip_length_le _), clip_clip_append, List.append_assoc]
    rfl

/-- Claim C3: the per-instance log buffer is a 1000-bounded ring,
discarding oldest first: appending more than 1000 entries to any starting
state leaves the full retained buffer equal to exactly the last 1000
appended entries, in append order. -/
theorem C3_ring_bound (s : PMState) (instanceId : String)
    (ms : List (Chan × String × Nat)) (h : 1000 < ms.length) :
    getLogs (appendAll s instanceId ms) instanceId none
      = (entriesOf ms).drop (ms.length - 1000)
    ∧ (getLogs (appendAll s instanceId ms) instanceId none).length = 1000 := by
  have hg : getLogs (appendAll s instanceId ms) instanceId none
      = logsOf (appendAll s instanceId ms) instanceId := rfl
  have hlen : (entriesOf ms).length = ms.length := by
    simp [entriesOf]
  have step : logsOf (appendAll s instanceId ms) instanceId
      = clip (logsOf s instanceId ++ entriesOf ms) := by
    obtain ⟨m0, rest, rfl⟩ : ∃ m0 rest, ms = m0 :: rest := by
      cases ms with
      | nil => simp at h
      | cons a b => exact ⟨a, b, rfl⟩
    obtain ⟨c, msg, t⟩ := m0
    rw [logsOf_appendAll]
    simp only [entriesOf, List.map_cons, List.foldl_cons]
    rw [foldl_clip_eq _ _ (clip_length_le _), clip_clip_append,
      List.append_assoc]
    rfl
  have hsplit : clip (logsOf s instanceId ++ entriesOf ms)
      = (entriesOf ms).drop (ms.length - 1000) := by
    unfold clip
    rw [List.length_append, hlen]
    have h7 : (logsOf s instanceId).length + ms.length - 1000
        = (logsOf s instanceId).length + (ms.length - 1000) := by omega
    rw [h7, List.drop_append]
  constructor
  · rw [hg, step, hsplit]
  · rw [hg, step, hsplit, List.length_drop, hlen]
    omega

theorem C3_ring_bound_witness :
    getLogs (appendAll PMState.init "i1"
        (List.replicate 1001 ((Chan.stdout : Chan), "x", (0 : Nat)))) "i1" none
      = (entriesOf (List.replicate 1001
          ((Chan.stdout : Chan), "x", (0 : Nat)))).drop
          ((List.replicate 1001 ((Chan.stdout : Chan), "x", (0 : Nat))).length
            - 1000)
    ∧ (getLogs (appendAll PMState.init "i1"
        (List.replicate 1001 ((Chan.stdout : Chan), "x", (0 : Nat)))) "i1"
          none).length = 1000 :=
  C3_ring_bound PMState.init "i1"
    (List.replicate 1001 ((Chan.stdout : Chan), "x", (0 : Nat)))
    (by rw [List.length_replicate]; omega)

/-! ### getLogs with a limit -/

/-- Claim C8 counterexample: with a given limit of 0 the claim predicts
the last min(0, size) = 0 entries, but `getLogs` treats a zero limit as
falsy and returns the full retained buffer — here 2 entries. -/
theorem C8_zero_limit_cex :
    (getLogs preC8 "i1" (some 0)).length
      ≠ min 0 (getLogs preC8 "i1" none).length := by
  decide

/-- Claim C8 as amended: for every positive given limit, `getLogs`
returns the last min(limit, buffer size) retained entries in emission
order (a suffix of the full buffer of that length), and with no limit it
returns the full retained buffer; a limit of 0 is treated as no limit. -/
theorem C8_positive_limit (s : PMState) (instanceId : String) (l : Nat)
    (hl : 0 < l) :
    getLogs s instanceId (some l)
        = (getLogs s instanceId none).drop
            ((getLogs s instanceId none).length - l)
    ∧ (getLogs s instanceId (some l)).length
        = min l (getLogs s instanceId none).length
    ∧ List.IsSuffix (getLogs s instanceId (some l))
        (getLogs s instanceId none) := by
  have hne : ¬ l = 0 := by omega
  refine ⟨by simp [getLogs, hne], ?_, ?_⟩
  · simp [getLogs, hne, List.length_drop]
    omega
  · simp only [getLogs, hne, if_neg]
    exact List.drop_suffix _ _

theorem C8_positive_limit_witness :
    getLogs preC8 "i1" (some 1)
        = (getLogs preC8 "i1" none).drop
            ((getLogs preC8 "i1" none).length - 1)
    ∧ (getLogs preC8 "i1" (some 1)).length
        = min 1 (getLogs preC8 "i1" none).length
    ∧ List.IsSuffix (getLogs preC8 "i1" (some 1))
        (getLogs preC8 "i1" none) :=
  C8_positive_limit preC8 "i1" 1 (by decide)

/-! ### Auto-restart backoff -/

theorem runExits_cons (m : List (String × AttemptInfo)) (instanceId : String)
    (t : Nat) (rest : List Nat) :
    runExits m instanceId (t :: rest)
      = ((runExits (onExitPolicy true m instanceId t).1 instanceId rest).1,
         (onExitPolicy true m instanceId t).2
           :: (runExits (onExitPolicy true m instanceId t).1 instanceId
                rest).2) := rfl

theorem runExits_inWindow (m : List (String × AttemptInfo))
    (instanceId : String) (k t0 : Nat) (ts : List Nat)
    (hm : mapGet m instanceId = some ⟨k, t0⟩) (hk : k ≤ 5)
    (hts : ∀ t ∈ ts, t - t0 ≤ 60000) :
    (runExits m instanceId ts).2
      = ((List.range' (k + 1) (min ts.length (5 - k))).map
          (fun n => some (RestartAction.schedule (1000 * n))))
        ++ List.replicate (ts.length - (5 - k))
            (some (RestartAction.giveUp 5)) := by
  induction ts generalizing m k with
  | nil => simp [runExits]
  | cons t rest ih =>
    have hstale : ¬ (60000 < t - t0) := by
      have := hts t (by simp)
      omega
    by_cases hk5 : k = 5
    · subst hk5
      have hstep : onExitPolicy true m instanceId t
          = (m, some (.giveUp 5)) := by
        simp [onExitPolicy, hm, hstale]
      rw [runExits_cons, hstep]
      simp only []
      rw [ih m 5 hm (le_refl 5) (fun u hu => hts u (by simp [hu]))]
      simp [List.replicate_succ]
    · have hklt : k < 5 := by omega
      have hnotge : ¬ (5 ≤ k) := by omega
      have hstep : onExitPolicy true m instanceId t
          = (mapSet m instanceId ⟨k + 1, t0⟩,
             some (.schedule (1000 * (k + 1)))) := by
        simp [onExitPolicy, hm, hstale, hnotge]
      rw [runExits_cons, hstep]
      simp only []
      rw [ih (mapSet m instanceId ⟨k + 1, t0⟩) (k + 1)
        (mapGet_mapSet_self _ _ _) (by omega)
        (fun u hu => hts u (by simp [hu]))]
      have e1 : min (rest.length + 1) (5 - k) = (min rest.length (4 - k)) + 1 := by
        omega
      have e2 : 5 - (k + 1) = 4 - k := by omega
      have e3 : (rest.length + 1) - (5 - k) = rest.length - (4 - k) := by
        omega
      simp only [List.length_cons, e1, e2, e3, List.range'_succ, List.map_cons]
      rfl

/-- Claim C4: for a run of consecutive crash-exits of one instance within
60s of the first with auto-restart enabled, starting from no attempt
window, the Nth exit schedules a respawn with backoff N × 1000 ms for
N ≤ 5, and every exit past the 5th schedules nothing and instead yields
the give-up action carrying the attempt count 5 (broadcast as
autoRestartFailed). -/
theorem C4_linear_backoff_then_give_up (instanceId : String) (t0 : Nat)
    (ts : List Nat) (hts : ∀ t ∈ ts, t - t0 ≤ 60000) :
    (runExits [] instanceId (t0 :: ts)).2
      = ((List.range' 1 (min (ts.length + 1) 5)).map
          (fun n => some (RestartAction.schedule (1000 * n))))
        ++ List.replicate (ts.length + 1 - 5)
            (some (RestartAction.giveUp 5)) := by
  have h0 : onExitPolicy true [] instanceId t0
      = ([(instanceId, ⟨1, t0⟩)], some (.schedule 1000)) := by
    simp [onExitPolicy, mapGet, mapSet]
  rw [runExits_cons, h0]
  simp only []
  rw [runExits_inWindow [(instanceId, ⟨1, t0⟩)] instanceId 1 t0 ts
    (by simp [mapGet]) (by omega) hts]
  have e1 : min (ts.length + 1) 5 = (min ts.length 4) + 1 := by omega
  have e3 : ts.length + 1 - 5 = ts.length - 4 := by omega
  simp only [e1, e3, List.range'_succ, List.map_cons]
  rfl

theorem C4_linear_backoff_then_give_up_witness :
    (runExits [] "i1" (0 :: [1000, 2000, 3000, 4000, 5000, 6000])).2
      = ((List.range' 1 (min ([1000, 2000, 3000, 4000, 5000, 6000].length + 1)
            5)).map (fun n => some (RestartAction.schedule (1000 * n))))
        ++ List.replicate ([1000, 2000, 3000, 4000, 5000, 6000].length + 1 - 5)
            (some (RestartAction.giveUp 5)) :=
  C4_linear_backoff_then_give_up "i1" 0 [1000, 2000, 3000, 4000, 5000, 6000]
    (by decide)

/-! ### Clearing of the attempt window -/

theorem smUpdate_ok_of_getById (u : BunProxyInstance → BunProxyInstance)
    (d : List BunProxyInstance) (id : String)
    (h : (getById d id).isSome = true) :
    ∃ d2, smUpdate u d id = Except.ok d2 := by
  induction d with
  | nil => simp [getById] at h
  | cons inst rest ih =>
    by_cases hid : inst.id = id
    · exact ⟨u inst :: rest, by simp [smUpdate, hid]⟩
    · obtain ⟨d2, hd2⟩ := ih (by simpa [getById, hid] using h)
      exact ⟨inst :: d2, by simp [smUpdate, hid, hd2]⟩

/-- Claim C6 counterexample: a successful manual start through the start
endpoint does not remove the attempt-window entry: starting i1 (which
carries a window of 3 attempts) succeeds with pid 42, and the window entry
is still there afterwards, not removed. -/
theorem C6_manual_start_keeps_attempts_cex :
    (apiStart srvA "i1" (some 42) 100).2 = ApiResp.started 42
    ∧ mapGet (apiStart srvA "i1" (some 42) 100).1.attempts "i1"
        = some ⟨3, 0⟩ := by
  constructor
  · rfl
  · rfl

/-- Claim C6 as amended: the attempt-window entry of an instance is
removed when the scheduled respawn callback runs while the instance is
registered and obtains a pid (successful respawn), and also when the
callback finds the instance already running; a successful manual start via
the start endpoint, by contrast, leaves the entry in place (see the
counterexample), so a crash-exit after a manual start resumes the prior
window count. -/
theorem C6_respawn_clears_attempts (s : SrvState) (instanceId : String)
    (p : Nat) (now : Nat) (hnd : keysNodup s.attempts)
    (hreg : (getById s.registry instanceId).isSome = true)
    (hp : p ≠ 0) :
    mapGet (respawnFire s instanceId (some p) now).attempts instanceId
      = none := by
  obtain ⟨inst, hinst⟩ : ∃ i, getById s.registry instanceId = some i := by
    cases hg : getById s.registry instanceId with
    | none => rw [hg] at hreg; simp at hreg
    | some i => exact ⟨i, rfl⟩
  by_cases hrun : isRunning s.pm instanceId
  · simp only [respawnFire, hinst, hrun, if_pos]
    exact mapGet_mapDelete_self _ _ hnd
  · have hstart : (start s.pm instanceId (some p) now).2 = Except.ok p := by
      simp [start, isRunning] at hrun
      simp [start, hrun, hp]
    obtain ⟨reg2, hreg2⟩ :=
      smUpdate_ok_of_getById (setPidUpdate (some p) now) s.registry
        instanceId hreg
    simp only [respawnFire, hinst, hrun, if_neg, Bool.false_eq_true,
      not_false_iff, hstart]
    rw [show setPid s.registry instanceId (some p) now
        = smUpdate (setPidUpdate (some p) now) s.registry instanceId from rfl,
      hreg2]
    exact mapGet_mapDelete_self _ _ hnd

theorem C6_respawn_clears_attempts_witness :
    mapGet (respawnFire srvA "i1" (some 42) 100).attempts "i1" = none :=
  C6_respawn_clears_attempts srvA "i1" 42 100 (by decide) (by decide)
    (by decide)

/-! ### Broadcast isolation -/

/-- Claim C7: an observer whose channel is unusable (readyState not OPEN,
e.g. closed) does not block or fail delivery of a broadcast to any other
observer — every OPEN observer still receives the message — the failing
observer itself receives nothing, a broadcast never mutates the observer
set, and the close handler registered on the connection prunes that
observer from the active set. -/
theorem C7_broadcast_isolation (cs : List Client) (c : Client)
    (hnd : (cs.map Client.cid).Nodup) (hmem : c ∈ cs)
    (hfail : c.readyState ≠ wsOPEN) :
    (∀ c2 ∈ cs, c2.readyState = wsOPEN → c2.cid ∈ (broadcast cs).2)
    ∧ c.cid ∉ (broadcast cs).2
    ∧ (broadcast cs).1 = cs
    ∧ c ∉ onCloseEv cs c := by
  refine ⟨?_, ?_, rfl, ?_⟩
  · intro c2 h2 hopen
    have hf : c2 ∈ cs.filter (fun x => x.readyState = wsOPEN) := by
      rw [List.mem_filter]
      exact ⟨h2, by simp [hopen]⟩
    exact List.mem_map_of_mem (fun x => x.cid) hf
  · intro hc
    obtain ⟨c2, hc2f, hcid⟩ := List.mem_map.mp hc
    obtain ⟨hc2, hopen⟩ := List.mem_filter.mp hc2f
    have heq : c2 = c := List.inj_on_of_nodup_map hnd hc2 hmem hcid
    rw [heq] at hopen
    simp at hopen
    exact hfail hopen
  · have hnodup : cs.Nodup := List.Nodup.of_map _ hnd
    intro hin
    exact ((List.Nodup.mem_erase_iff hnodup).mp hin).1 rfl

theorem C7_broadcast_isolation_witness :
    (∀ c2 ∈ [(⟨1, 1⟩ : Client), ⟨2, 3⟩, ⟨3, 1⟩], c2.readyState = wsOPEN →
        c2.cid ∈ (broadcast [(⟨1, 1⟩ : Client), ⟨2, 3⟩, ⟨3, 1⟩]).2)
    ∧ (⟨2, 3⟩ : Client).cid ∉ (broadcast [(⟨1, 1⟩ : Client), ⟨2, 3⟩, ⟨3, 1⟩]).2
    ∧ (broadcast [(⟨1, 1⟩ : Client), ⟨2, 3⟩, ⟨3, 1⟩]).1
        = [(⟨1, 1⟩ : Client), ⟨2, 3⟩, ⟨3, 1⟩]
    ∧ (⟨2, 3⟩ : Client) ∉ onCloseEv [(⟨1, 1⟩ : Client), ⟨2, 3⟩, ⟨3, 1⟩] ⟨2, 3⟩ :=
  C7_broadcast_isolation [(⟨1, 1⟩ : Client), ⟨2, 3⟩, ⟨3, 1⟩] ⟨2, 3⟩
    (by decide) (by decide) (by decide)

/-! ### setPid and the registry -/

/-- Claim C9 counterexample: `setPid` does not modify only the pid field:
setting the pid of i1 to 42 at time 100 also overwrites the lastStarted
field (from 5 to 100). -/
theorem C9_setPid_writes_lastStarted_cex :
    setPid [instA] "i1" (some 42) 100
      = Except.ok [{ instA with pid := some 42, lastStarted := some 100 }]
    ∧ instA.lastStarted ≠ some 100 := by
  constructor
  · rfl
  · decide

/-- Claim C9 as amended: a `setPid(instanceId, pid)` call writes exactly
the pid and lastStarted fields of the first registry instance with that
id — pid to the given value, lastStarted to now when the pid is truthy and
cleared otherwise — and leaves every other field of that instance and
every other instance entirely unchanged. -/
theorem C9_setPid_frame (d d2 : List BunProxyInstance) (id : String)
    (pid : Option Nat) (now : Nat)
    (h : setPid d id pid now = Except.ok d2) :
    List.Forall₂ (fun a b =>
      b = a ∨
      (a.id = id ∧ b.id = a.id ∧ b.name = a.name ∧ b.version = a.version
        ∧ b.platform = a.platform ∧ b.binaryPath = a.binaryPath
        ∧ b.dataDir = a.dataDir ∧ b.configPath = a.configPath
        ∧ b.autoRestart = a.autoRestart ∧ b.downloadUrl = a.downloadUrl
        ∧ b.downloadSha256 = a.downloadSha256
        ∧ b.pid = pid
        ∧ b.lastStarted = (if pidTruthy pid then some now else none))) d d2 := by
  induction d generalizing d2 with
  | nil => simp [setPid, smUpdate] at h
  | cons inst rest ih =>
    by_cases hid : inst.id = id
    · have h2 : d2 = setPidUpdate pid now inst :: rest := by
        simp [setPid, smUpdate, hid] at h
        exact h.symm
      subst h2
      refine List.Forall₂.cons ?_ ?_
      · right
        refine ⟨hid, ?_⟩
        simp [setPidUpdate]
      · exact List.forall₂_same.mpr (fun a _ => Or.inl rfl)
    · cases hrec : smUpdate (setPidUpdate pid now) rest id with
      | error e =>
        rw [show setPid (inst :: rest) id pid now
            = (match smUpdate (setPidUpdate pid now) rest id with
               | .ok rest2 => Except.ok (inst :: rest2)
               | .error e => Except.error e) from by
              simp [setPid, smUpdate, hid]] at h
        rw [hrec] at h
        simp at h
      | ok rest2 =>
        rw [show setPid (inst :: rest) id pid now
            = (match smUpdate (setPidUpdate pid now) rest id with
               | .ok rest2 => Except.ok (inst :: rest2)
               | .error e => Except.error e) from by
              simp [setPid, smUpdate, hid]] at h
        rw [hrec] at h
        simp at h
        subst h
        exact List.Forall₂.cons (Or.inl rfl) (ih rest2 hrec)

theorem C9_setPid_frame_witness :
    List.Forall₂ (fun a b =>
      b = a ∨
      (a.id = "i1" ∧ b.id = a.id ∧ b.name = a.name ∧ b.version = a.version
        ∧ b.platform = a.platform ∧ b.binaryPath = a.binaryPath
        ∧ b.dataDir = a.dataDir ∧ b.configPath = a.configPath
        ∧ b.autoRestart = a.autoRestart ∧ b.downloadUrl = a.downloadUrl
        ∧ b.downloadSha256 = a.downloadSha256
        ∧ b.pid = some 42
        ∧ b.lastStarted = (if pidTruthy (some 42) then some 100 else none)))
      [instA] [{ instA with pid := some 42, lastStarted := some 100 }] :=
  C9_setPid_frame [instA]
    [{ instA with pid := some 42, lastStarted := some 100 }]
    "i1" (some 42) 100 (by rfl)

end BunProxy
